import Mathlib

/-
  Verification development for the ninja gateway (src/openai/src/api/opengpt.rs and
  src/openai/src/serve/mod.rs).  Rust strings are embedded as lists of characters,
  HTTP dispatch as an explicit oracle function, and every handler returns the list
  of upstream requests it issued together with its result, so that claims of the
  form "without issuing any upstream request" are statable.
-/

namespace Ninja

/-- Rust `String` / `&str`, embedded as a list of characters. -/
abbrev Str := List Char

/-- Opening curly brace character, written via its code point. -/
def braceOpenC : Char := Char.ofNat 123

/-- Closing curly brace character, written via its code point. -/
def braceCloseC : Char := Char.ofNat 125

/-- The SSE data prefix `"data: "` tested by `trim_start_matches` in the source. -/
def dataTag : Str := "data: ".toList

/-- The chunk dispatch pattern `"data: {"` from `body.starts_with` in the source. -/
def dataObjTag : Str := "data: \x7b".toList

/-- The sentinel pattern `"data: [DONE]"` from the source. -/
def doneTag : Str := "data: [DONE]".toList

/-- The literal `"Bearer "` stripped by the token handlers in serve/mod.rs. -/
def bearerTag : Str := "Bearer ".toList

/-- Rust `s.starts_with(p)`. -/
def startsWith (s p : Str) : Bool := List.isPrefixOf p s

/-- Segments of Rust `str::split_inclusive('\n')`: each segment keeps its
terminating newline; a final segment without a newline is kept as is. -/
def splitInclNl : Str → List Str
  | [] => []
  | c :: cs =>
    if c = '\n' then ['\n'] :: splitInclNl cs
    else
      match splitInclNl cs with
      | [] => [[c]]
      | seg :: segs => (c :: seg) :: segs

/-- Drop one leading carriage return, if present. -/
def dropLeadingCr (l : Str) : Str :=
  match l with
  | [] => []
  | c :: rest => if c = '\r' then rest else c :: rest

/-- Strip a trailing `"\n"` and then an optional `"\r"` before it, exactly as the
per-segment post-processing of Rust `str::lines` does (a trailing `'\r'` is only
removed when a `'\n'` was removed first). -/
def rustStripEol (l : Str) : Str :=
  if l.getLast? = some '\n' then (dropLeadingCr l.dropLast.reverse).reverse else l

/-- Rust `str::lines`: split at `'\n'`, dropping the terminator and an optional
preceding `'\r'`; the final line ending is optional. -/
def rustLines (s : Str) : List Str := (splitInclNl s).map rustStripEol

/-- Whitespace recognised by the embedding of Rust `str::trim` (the source is only
ever applied to ASCII payloads, where Rust trims exactly these characters). -/
def isWsChar (c : Char) : Bool := c = ' ' || c = '\t' || c = '\n' || c = '\r'

/-- Rust `str::trim` on ASCII text: drop leading and trailing whitespace. -/
def trimStr (s : Str) : Str := ((s.dropWhile isWsChar).reverse.dropWhile isWsChar).reverse

/-- Iteration core of Rust `str::trim_start_matches`: repeatedly drop the pattern
while it is a prefix.  The fuel argument bounds the number of iterations; since a
non-empty pattern removes at least one character per step, fuel equal to the
length of the subject string is always sufficient. -/
def trimStartMatchesAux (pat : Str) : Nat → Str → Str
  | 0, s => s
  | fuel + 1, s =>
    if pat ≠ [] ∧ List.isPrefixOf pat s then
      trimStartMatchesAux pat fuel (s.drop pat.length)
    else s

/-- Rust `s.trim_start_matches(pat)`: repeatedly removes every leading occurrence
of `pat` from `s`. -/
def trimStartMatches (pat s : Str) : Str := trimStartMatchesAux pat s.length s

-- The typed API client of src/openai/src/api/opengpt.rs.

/-- HTTP methods, from the `RequestMethod` enum used by the client. -/
inductive RequestMethod
  | GET
  | POST
  | PATCH
  | PUT
  | DELETE
deriving DecidableEq

/-- The error taxonomy of the client.  The enum itself is declared outside the
given sources; its variants are reconstructed from their construction sites in
opengpt.rs (every variant below is named there). -/
inductive ApiError
  | FailedRequestError (msg : Str)
  | BadAuthenticationError (msg : Str)
  | TooManyRequestsError (msg : Str)
  | BadRequestError (msg : Str)
  | ServerError
  | JsonReqwestDeserializeError (msg : Str)
  | SerdeDeserializeError (msg : Str)
  | FromUtf8Error (msg : Str)
  | RequiredParameter (name : Str)
deriving DecidableEq

/-- The `OpenGPT` client struct: an API prefix string, an HTTP client of some
opaque type `C`, and the bearer token held in the `RwLock` (embedded as the
string it currently contains). -/
structure OpenGPT (C : Type) where
  api_prefix : Str
  client : C
  access_token : Str
deriving DecidableEq

/-- A single upstream HTTP request as issued by the client: method, URL, the
bearer token attached by `bearer_auth`, and the JSON payload (of some type `P`)
attached by `.json(payload)`, when present. -/
structure HttpReq (P : Type) where
  method : RequestMethod
  url : Str
  bearer : Str
  payload : Option P
deriving DecidableEq

/-- An upstream HTTP response as observed by the client: status code, body text
and the response URL (used in error messages). -/
structure HttpResponse where
  status : Nat
  body : Str
  url : Str
deriving DecidableEq

/-- Rust `StatusCode::is_client_error`. -/
def is_client_error (s : Nat) : Bool := decide (400 ≤ s ∧ s ≤ 499)

/-- Rust `Response::error_for_status_ref` fails exactly on 4xx and 5xx codes. -/
def is_error_status (s : Nat) : Bool := decide (400 ≤ s ∧ s ≤ 599)

/-- The error message `format!("error: {}, url: {}", resp.text(), url)` built at
the top of `err_handle`. -/
def err_msg (body url : Str) : Str :=
  "error: ".toList ++ body ++ ", url: ".toList ++ url

/-- The status codes enumerated by the outer match of `OpenGPT::err_handle`:
401, 408, 429, 400, 402, 403 (4xx) and 500, 502, 503, 504 (5xx). -/
def errHandleStatusSet : List Nat := [401, 408, 429, 400, 402, 403, 500, 502, 503, 504]

/-- The response classifier `OpenGPT::err_handle` (opengpt.rs:82-119) as a pure
function of the response status, body text and URL.  Statuses in the enumerated
set are refined by the inner tests (401, 429, other client errors, else server
error); every status outside the set falls to the `_` arm. -/
def OpenGPT.err_handle (status : Nat) (body url : Str) : ApiError :=
  if status ∈ errHandleStatusSet then
    if status = 401 then ApiError.BadAuthenticationError (err_msg body url)
    else if status = 429 then ApiError.TooManyRequestsError (err_msg body url)
    else if is_client_error status then ApiError.BadRequestError (err_msg body url)
    else ApiError.ServerError
  else ApiError.FailedRequestError (err_msg body url)

/-- The result handler `OpenGPT::response_handle` (opengpt.rs:72-80): a non-error
status has its body deserialized (failures wrapped as
`JsonReqwestDeserializeError`), an error status is classified by `err_handle`. -/
def OpenGPT.response_handle (U : Type) (parse : Str → Except Str U)
    (resp : HttpResponse) : Except ApiError U :=
  if is_error_status resp.status then
    Except.error (OpenGPT.err_handle resp.status resp.body resp.url)
  else
    match parse resp.body with
    | Except.ok u => Except.ok u
    | Except.error e => Except.error (ApiError.JsonReqwestDeserializeError e)

/-- The payloadless dispatcher `OpenGPT::request` (opengpt.rs:25-41).  The HTTP
send is an oracle `send`; the function returns the list of upstream requests it
issued together with its result, making request counting observable. -/
def OpenGPT.request (C P U : Type) (g : OpenGPT C) (send : HttpReq P → HttpResponse)
    (parse : Str → Except Str U) (url : Str) (m : RequestMethod) :
    List (HttpReq P) × Except ApiError U :=
  let rq : HttpReq P := ⟨m, url, g.access_token, none⟩
  ([rq], OpenGPT.response_handle U parse (send rq))

/-- The payload-carrying dispatcher `OpenGPT::request_payload` (opengpt.rs:43-70).
The source match lists POST, PATCH, PUT and DELETE and sends every other method
(only GET remains) to the `_` arm, which fails without sending. -/
def OpenGPT.request_payload (C P U : Type) (g : OpenGPT C)
    (send : HttpReq P → HttpResponse) (parse : Str → Except Str U)
    (url : Str) (m : RequestMethod) (payload : P) :
    List (HttpReq P) × Except ApiError U :=
  match m with
  | RequestMethod.POST | RequestMethod.PATCH | RequestMethod.PUT | RequestMethod.DELETE =>
    let rq : HttpReq P := ⟨m, url, g.access_token, some payload⟩
    ([rq], OpenGPT.response_handle U parse (send rq))
  | _ => ([], Except.error (ApiError.FailedRequestError ("not supported method".toList)))

/-- The base URL constant `URL_CHATGPT_BACKEND`; it is declared outside the given
sources, and no claim depends on its value. -/
def URL_CHATGPT_BACKEND : Str := "https://chat.openai.com/backend-api".toList

/-- Request model for `get_conversation` / `get_conversations`.  The struct is
declared outside the given sources; the fields are reconstructed from their use
sites in opengpt.rs (`conversation_id` is an `Option`, `offset` and `limit` are
query integers). -/
structure GetConvoRequest where
  conversation_id : Option Str
  offset : Nat
  limit : Nat
deriving DecidableEq

/-- Request model for `patch_conversation`.  Declared outside the given sources;
only its `conversation_id : Option` field is consulted by the code under
verification, the rest of the struct is the serialized payload. -/
structure PatchConvoRequest where
  conversation_id : Option Str
  title : Option Str
deriving DecidableEq

/-- The parameter name in `ApiError::RequiredParameter("conversation_id")`. -/
def convIdName : Str := "conversation_id".toList

/-- Path fragment of the conversation endpoint URL. -/
def convoSlash : Str := "/conversation/".toList

/-- `OpenGPT::get_conversation` (opengpt.rs:144-158): requires the conversation
id and dispatches a GET, otherwise fails with `RequiredParameter` without
issuing any request. -/
def OpenGPT.get_conversation (C P U : Type) (g : OpenGPT C)
    (send : HttpReq P → HttpResponse) (parse : Str → Except Str U)
    (req : GetConvoRequest) : List (HttpReq P) × Except ApiError U :=
  match req.conversation_id with
  | some cid =>
    OpenGPT.request C P U g send parse (URL_CHATGPT_BACKEND ++ convoSlash ++ cid)
      RequestMethod.GET
  | none => ([], Except.error (ApiError.RequiredParameter convIdName))

/-- `OpenGPT::patch_conversation` (opengpt.rs:233-248): requires the conversation
id and dispatches a PATCH whose payload is the request itself, otherwise fails
with `RequiredParameter` without issuing any request. -/
def OpenGPT.patch_conversation (C U : Type) (g : OpenGPT C)
    (send : HttpReq PatchConvoRequest → HttpResponse) (parse : Str → Except Str U)
    (req : PatchConvoRequest) : List (HttpReq PatchConvoRequest) × Except ApiError U :=
  match req.conversation_id with
  | some cid =>
    OpenGPT.request_payload C PatchConvoRequest U g send parse
      (URL_CHATGPT_BACKEND ++ convoSlash ++ cid) RequestMethod.PATCH req
  | none => ([], Except.error (ApiError.RequiredParameter convIdName))

/-- `RefreshToken::refresh_token for OpenGPT` (opengpt.rs:298-302): replaces the
whole token lock with a fresh one holding the new access token. -/
def OpenGPT.refresh_token (C : Type) (g : OpenGPT C) (access_token : Str) : OpenGPT C :=
  { g with access_token := access_token }

-- The decode-and-collect loop of OpenGPT::post_conversation_completions
-- (opengpt.rs:205-231).  Chunks are embedded after UTF-8 decoding (a chunk is a
-- Str); JSON deserialization of a record is an oracle `parse` into some record
-- type `J` with error type `E`, standing for `serde_json::from_str`.

/-- The line text handed to the JSON parser for one line `ele` of a data chunk:
`ele.trim_start_matches("data: ").trim()`. -/
def lineParseText (l : Str) : Str := trimStr (trimStartMatches dataTag l)

/-- The non-empty lines of a chunk body:
`body.lines().filter(|s| !s.is_empty())`. -/
def nonEmptyLines (body : Str) : List Str :=
  (rustLines body).filter (fun l => !(List.isEmpty l))

/-- The inner `for ele in chunks` loop of the collect mode: parse each line and
push the record onto the accumulator `v`; a parse failure aborts with the error
(the `?` operator). -/
def pushLines (J E : Type) (parse : Str → Except E J) (v : List J) :
    List Str → Except E (List J)
  | [] => Except.ok v
  | l :: ls =>
    match parse (lineParseText l) with
    | Except.error e => Except.error e
    | Except.ok j => pushLines J E parse (v ++ [j]) ls

/-- The `while let Some(item) = stream.next()` loop of the collect mode, with the
accumulator `v` threaded through: a chunk starting with `"data: {"` has all of
its non-empty lines parsed and pushed; a chunk starting with `"data: [DONE]"`
breaks, returning what was collected so far; any other chunk is skipped. -/
def collectLoop (J E : Type) (parse : Str → Except E J) (v : List J) :
    List Str → Except E (List J)
  | [] => Except.ok v
  | body :: rest =>
    if startsWith body dataObjTag then
      match pushLines J E parse v (nonEmptyLines body) with
      | Except.error e => Except.error e
      | Except.ok v2 => collectLoop J E parse v2 rest
    else if startsWith body doneTag then Except.ok v
    else collectLoop J E parse v rest

/-- Decode-and-collect mode (opengpt.rs:205-231, the `Ok` branch): run the chunk
loop starting from the empty output vector. -/
def post_conversation_completions_collect (J E : Type) (parse : Str → Except E J)
    (chunks : List Str) : Except E (List J) :=
  collectLoop J E parse [] chunks

/-- Parse a list of lines in order, collecting the records; the first failure is
returned as the overall error.  Written from the amended specification words for
the per-line processing of a data chunk. -/
def parseAllLines (J E : Type) (parse : Str → Except E J) :
    List Str → Except E (List J)
  | [] => Except.ok []
  | l :: ls =>
    match parse (lineParseText l) with
    | Except.error e => Except.error e
    | Except.ok j =>
      match parseAllLines J E parse ls with
      | Except.error e => Except.error e
      | Except.ok js => Except.ok (j :: js)

/-- Amended specification of decode-and-collect, written from the corrected
claim: each chunk is dispatched on its leading bytes; a chunk beginning with the
data-object pattern contributes the parsed records of all of its non-empty lines
(a parse failure fails the whole call); a chunk beginning with the sentinel ends
consumption; any other chunk is skipped whole. -/
def specAmendedCollect (J E : Type) (parse : Str → Except E J) :
    List Str → Except E (List J)
  | [] => Except.ok []
  | body :: rest =>
    if startsWith body dataObjTag then
      match parseAllLines J E parse (nonEmptyLines body) with
      | Except.error e => Except.error e
      | Except.ok js =>
        match specAmendedCollect J E parse rest with
        | Except.error e => Except.error e
        | Except.ok tail => Except.ok (js ++ tail)
    else if startsWith body doneTag then Except.ok []
    else specAmendedCollect J E parse rest

/-- Concatenation of a list of lists (used to flatten per-chunk line lists). -/
def concatAll {A : Type} : List (List A) → List A
  | [] => []
  | l :: ls => l ++ concatAll ls

/-- Line-by-line consumption as the original claim C2 words it: every chunk is
split into lines; each non-empty line is tested individually — a sentinel line
ends consumption, a line bearing the data prefix has the prefix stripped and the
remainder parsed and appended, and a line matching neither is skipped. -/
def lineByLine (J E : Type) (parse : Str → Except E J) :
    List Str → Except E (List J)
  | [] => Except.ok []
  | l :: ls =>
    if List.isEmpty l then lineByLine J E parse ls
    else if startsWith l doneTag then Except.ok []
    else if startsWith l dataTag then
      match parse (l.drop dataTag.length) with
      | Except.error e => Except.error e
      | Except.ok j =>
        match lineByLine J E parse ls with
        | Except.error e => Except.error e
        | Except.ok js => Except.ok (j :: js)
    else lineByLine J E parse ls

/-- Decode-and-collect as the original claim C2 describes it: all chunks are
split into lines and the lines are processed one by one. -/
def lineByLineCollect (J E : Type) (parse : Str → Except E J)
    (chunks : List Str) : Except E (List J) :=
  lineByLine J E parse (concatAll (chunks.map rustLines))

/-- A record looks like a one-line JSON object: it opens with a left brace and
closes with a right brace. -/
def jsonObjLike (s : Str) : Bool :=
  s.head? == some braceOpenC && s.getLast? == some braceCloseC

/-- Concrete JSON-record parser used in witnesses and counterexamples as a stand
in for `serde_json::from_str`.  On every string it is applied to in this file it
agrees with the real parser: the well-formed one-line JSON objects used in the
examples succeed, and non-object text such as stray event lines fails. -/
def toyParse (s : Str) : Except Str Str :=
  if jsonObjLike s then Except.ok s else Except.error s

/-- One upstream data frame as the stream ordering claim C3 frames it: the data
prefix, the record text, and a terminating newline — one record per chunk. -/
def frameChunk (r : Str) : Str := dataTag ++ r ++ ['\n']

/-- The sentinel chunk closing a well-formed stream. -/
def doneChunk : Str := "data: [DONE]\n".toList

-- The gateway serve layer of src/openai/src/serve/mod.rs.  Header maps are
-- embedded as ordered lists of (name, value) pairs of canonical lowercase
-- header names, matching how actix-web and reqwest store names.

/-- Canonical name of the Connection header. -/
def connectionName : Str := "connection".toList

/-- Canonical name of the User-Agent header. -/
def userAgentName : Str := "user-agent".toList

/-- Canonical name of the Authorization header. -/
def authorizationName : Str := "authorization".toList

/-- The header filter `header_convert` (serve/mod.rs:404-413): forward every
inbound header whose name differs from Connection and from User-Agent. -/
def Serve.header_convert (headers : List (Str × Str)) : List (Str × Str) :=
  headers.filter (fun kv => (kv.fst != connectionName) && (kv.fst != userAgentName))

/-- An upstream response as seen by the proxy: status, header list, and the body
as the stream of byte chunks. -/
structure UpstreamResponse where
  status : Nat
  headers : List (Str × Str)
  body : List Str
deriving DecidableEq

/-- The response the gateway hands back to its caller. -/
structure GatewayResponse where
  status : Nat
  headers : List (Str × Str)
  body : List Str
deriving DecidableEq

/-- actix-web `HttpResponseBuilder::insert_header`: insert a header, replacing
any already present with an equivalent name. -/
def Serve.insert_header (acc : List (Str × Str)) (kv : Str × Str) :
    List (Str × Str) :=
  (acc.filter (fun e => e.fst != kv.fst)) ++ [kv]

/-- The proxy response builder `response_handle` (serve/mod.rs:423-430): take the
upstream status, insert each upstream header in turn, and stream the body. -/
def Serve.response_handle (resp : UpstreamResponse) : GatewayResponse :=
  ⟨resp.status, resp.headers.foldl Serve.insert_header [], resp.body⟩

/-- A response of the token handlers: an HTTP status plus a body text. -/
structure HandlerResponse where
  status : Nat
  body : Str
deriving DecidableEq

/-- The 401 body literal of the refresh/revoke handlers. -/
def unauthorizedBody : Str :=
  "\x7b \"message\": \"refresh_token is required! \"\x7d".toList

/-- The handler `do_refresh_token` (serve/mod.rs:229-245).  The OAuth client is
the oracle `oauth`; the first component of the result is the list of tokens
passed to it.  Header values are embedded as strings, so the `to_str` failure
arm (non-ASCII header bytes) is not reachable in the model. -/
def Serve.do_refresh_token (oauth : Str → Except Str Str) (auth : Option Str) :
    List Str × HandlerResponse :=
  match auth with
  | some v =>
    let tok := trimStartMatches bearerTag v
    match oauth tok with
    | Except.ok body => ([tok], ⟨200, body⟩)
    | Except.error e => ([tok], ⟨400, e⟩)
  | none => ([], ⟨401, unauthorizedBody⟩)

/-- The handler `do_revoke_token` (serve/mod.rs:247-263), same shape as the
refresh handler, with an empty 200 body on success. -/
def Serve.do_revoke_token (oauth : Str → Except Str Str) (auth : Option Str) :
    List Str × HandlerResponse :=
  match auth with
  | some v =>
    let tok := trimStartMatches bearerTag v
    match oauth tok with
    | Except.ok _ => ([tok], ⟨200, []⟩)
    | Except.error e => ([tok], ⟨400, e⟩)
  | none => ([], ⟨401, unauthorizedBody⟩)

/-- Single stripping of the bearer marker, as the original claim C8 words it:
the literal prefix `"Bearer "` is stripped (once) and the remainder is the
token. -/
def specStripBearerOnce (v : Str) : Str :=
  if List.isPrefixOf bearerTag v then v.drop bearerTag.length else v

-- Decidable equality of Except results, used to evaluate witnesses.

instance instDecEqExcept {E A : Type} [DecidableEq E] [DecidableEq A] :
    DecidableEq (Except E A)
  | Except.ok x, Except.ok y =>
    if h : x = y then isTrue (by rw [h]) else isFalse (fun hc => h (Except.ok.inj hc))
  | Except.ok _, Except.error _ => isFalse (fun hc => Except.noConfusion hc)
  | Except.error _, Except.ok _ => isFalse (fun hc => Except.noConfusion hc)
  | Except.error e, Except.error f =>
    if h : e = f then isTrue (by rw [h]) else isFalse (fun hc => h (Except.error.inj hc))

-- Concrete inputs used by witnesses and counterexamples.

/-- An example upstream error body. -/
def exBody : Str := "conversation not found".toList

/-- An example response URL. -/
def exUrl : Str := "https://chat.openai.com/backend-api/models".toList

/-- Example record: the first data payload of the streaming scenario. -/
def recA : Str := "\x7b\"id\":\"a\"\x7d".toList

/-- Example record: the second data payload of the streaming scenario. -/
def recB : Str := "\x7b\"id\":\"b\"\x7d".toList

/-- Malformed trailing bytes placed after the sentinel. -/
def garbageChunk : Str := "garbage".toList

/-- A data chunk holding a record that fails to parse. -/
def badChunk : Str := "data: \x7bbad\n".toList

/-- The failing record text inside badChunk, as handed to the parser. -/
def badRec : Str := "\x7bbad".toList

/-- A chunk whose first line is unknown framing and whose second line is the
sentinel; the code skips the whole chunk, a per-line reading would stop. -/
def noteChunk : Str := "note\ndata: [DONE]\n".toList

/-- A well-formed single-record data chunk following noteChunk. -/
def xChunk : Str := "data: \x7b\"x\":1\x7d\n".toList

/-- The record carried by xChunk. -/
def xRec : Str := "\x7b\"x\":1\x7d".toList

/-- The chunk sequence separating chunk-dispatch from per-line consumption. -/
def exC2Chunks : List Str := [noteChunk, xChunk]

/-- Canonical name of the Set-Cookie header. -/
def setCookieName : Str := "set-cookie".toList

/-- First example cookie value. -/
def cookieA : Str := "a=1".toList

/-- Second example cookie value. -/
def cookieB : Str := "b=2".toList

/-- An example response body chunk. -/
def exBodyChunk : Str := "hello".toList

/-- An upstream response carrying two headers with the same name. -/
def dupResp : UpstreamResponse :=
  ⟨200, [(setCookieName, cookieA), (setCookieName, cookieB)], [exBodyChunk]⟩

/-- An example bearer header value. -/
def exAuthVal : Str := "Bearer tok-123".toList

/-- An upstream response whose header names are pairwise distinct. -/
def nodupResp : UpstreamResponse :=
  ⟨200, [(setCookieName, cookieA), (authorizationName, exAuthVal)], [exBodyChunk]⟩

/-- Canonical name of the Cookie header. -/
def exCookieName : Str := "cookie".toList

/-- An example cookie header value. -/
def exCookieVal : Str := "sid=42".toList

/-- An example Connection header value. -/
def exKeepAlive : Str := "keep-alive".toList

/-- An example User-Agent header value. -/
def exUaVal : Str := "curl/8".toList

/-- An example inbound header map touching every case of the header filter. -/
def exHeaders : List (Str × Str) :=
  [(authorizationName, exAuthVal), (connectionName, exKeepAlive),
   (userAgentName, exUaVal), (exCookieName, exCookieVal)]

/-- An Authorization value with a doubled bearer marker. -/
def doubleBearerVal : Str := "Bearer Bearer x".toList

/-- What the code passes to the OAuth client for doubleBearerVal. -/
def xTok : Str := "x".toList

/-- What a single strip of the literal marker would leave of doubleBearerVal. -/
def bearerXTok : Str := "Bearer x".toList

/-- An OAuth oracle that accepts every token and echoes it back. -/
def okOauthEcho : Str → Except Str Str := fun t => Except.ok t

/-- A client value over the trivial client type, used by witnesses. -/
def unitClient : OpenGPT Unit := ⟨[], (), []⟩

/-- An HTTP oracle answering every request with an empty 200 response. -/
def sendStub (P : Type) : HttpReq P → HttpResponse := fun _ => ⟨200, [], []⟩

/-- A deserializer oracle that always succeeds with the unit value. -/
def parseUnit : Str → Except Str Unit := fun _ => Except.ok ()

-- Basic facts about the string utilities, shared by several claim proofs.

theorem isPrefixOf_append_cancel (p q s : Str) :
    List.isPrefixOf (p ++ q) (p ++ s) = List.isPrefixOf q s := by
  induction p with
  | nil => simp [List.isPrefixOf]
  | cons a p ih => simp [List.isPrefixOf, ih]

theorem isPrefixOf_self_append (p s : Str) : List.isPrefixOf p (p ++ s) = true := by
  induction p with
  | nil => simp [List.isPrefixOf]
  | cons a p ih => simp [List.isPrefixOf, ih]

theorem splitInclNl_append_nl (s : Str) (h : '\n' ∉ s) :
    splitInclNl (s ++ ['\n']) = [s ++ ['\n']] := by
  induction s with
  | nil => rfl
  | cons c cs ih =>
    have hc : c ≠ '\n' := fun hc => h (by simp [hc])
    have hcs : '\n' ∉ cs := fun hm => h (List.mem_cons_of_mem _ hm)
    simp only [List.cons_append, splitInclNl, if_neg hc, List.append_eq, ih hcs]

theorem dropLeadingCr_of_head_ne (l : Str) (h : l.head? ≠ some '\r') :
    dropLeadingCr l = l := by
  cases l with
  | nil => rfl
  | cons c cs =>
    have : c ≠ '\r' := fun hc => h (by simp [hc])
    simp [dropLeadingCr, this]

theorem rustStripEol_append_nl (s : Str) (h : '\r' ∉ s) :
    rustStripEol (s ++ ['\n']) = s := by
  unfold rustStripEol
  rw [if_pos (by simp)]
  rw [List.dropLast_concat]
  have hhead : s.reverse.head? ≠ some '\r' := by
    intro hh
    cases hr : s.reverse with
    | nil => rw [hr] at hh; exact Option.noConfusion hh
    | cons c cs =>
      rw [hr] at hh
      have hc : c = '\r' := by simpa using hh
      have : c ∈ s.reverse := by rw [hr]; exact List.mem_cons_self _ _
      exact h (by rw [← hc]; exact List.mem_reverse.mp this)
  rw [dropLeadingCr_of_head_ne _ hhead, List.reverse_reverse]

theorem rustLines_single (s : Str) (hn : '\n' ∉ s) (hr : '\r' ∉ s) :
    rustLines (s ++ ['\n']) = [s] := by
  unfold rustLines
  rw [splitInclNl_append_nl s hn]
  simp [rustStripEol_append_nl s hr]

theorem trimStartMatchesAux_of_not (pat s : Str) (fuel : Nat)
    (h : ¬ (pat ≠ [] ∧ List.isPrefixOf pat s)) :
    trimStartMatchesAux pat fuel s = s := by
  cases fuel with
  | zero => rfl
  | succ n => simp only [trimStartMatchesAux, if_neg h]

theorem trimStartMatches_dataTag_concat (r : Str)
    (h : List.isPrefixOf dataTag r = false) :
    trimStartMatches dataTag (dataTag ++ r) = r := by
  unfold trimStartMatches
  have hlen : (dataTag ++ r).length = r.length + 6 := by
    simp [dataTag]
  rw [hlen]
  show trimStartMatchesAux dataTag (r.length + 5 + 1) (dataTag ++ r) = r
  rw [trimStartMatchesAux]
  rw [if_pos ⟨by simp [dataTag], isPrefixOf_self_append dataTag r⟩]
  have hdrop : (dataTag ++ r).drop dataTag.length = r := List.drop_left dataTag r
  rw [hdrop]
  exact trimStartMatchesAux_of_not dataTag r _ (fun hc => by rw [h] at hc; exact Bool.noConfusion hc.2)

theorem isPrefixOf_dataTag_of_head_brace (r : Str) (h : r.head? = some braceOpenC) :
    List.isPrefixOf dataTag r = false := by
  cases r with
  | nil => simp at h
  | cons c cs =>
    have hc : c = braceOpenC := by simpa using h
    subst hc
    have hne : ('d' == braceOpenC) = false := by decide
    have hdt : dataTag = 'd' :: "ata: ".toList := by decide
    rw [hdt]
    simp [List.isPrefixOf, hne]

-- Shared lemmas about the decode-and-collect loop.

theorem pushLines_eq (J E : Type) (parse : Str → Except E J) (ls : List Str)
    (v : List J) :
    pushLines J E parse v ls =
      Except.map (fun t => v ++ t) (parseAllLines J E parse ls) := by
  induction ls generalizing v with
  | nil => simp [pushLines, parseAllLines, Except.map]
  | cons l ls ih =>
    simp only [pushLines, parseAllLines]
    cases hp : parse (lineParseText l) with
    | error e => simp [Except.map]
    | ok j =>
      dsimp only
      rw [ih]
      cases hr : parseAllLines J E parse ls with
      | error e => simp [Except.map]
      | ok js => simp [Except.map]

theorem collectLoop_eq (J E : Type) (parse : Str → Except E J) (chunks : List Str)
    (v : List J) :
    collectLoop J E parse v chunks =
      Except.map (fun t => v ++ t) (specAmendedCollect J E parse chunks) := by
  induction chunks generalizing v with
  | nil => simp [collectLoop, specAmendedCollect, Except.map]
  | cons body rest ih =>
    simp only [collectLoop, specAmendedCollect]
    by_cases h1 : startsWith body dataObjTag
    · rw [if_pos h1, if_pos h1, pushLines_eq]
      cases hp : parseAllLines J E parse (nonEmptyLines body) with
      | error e => simp [Except.map]
      | ok js =>
        simp only [Except.map, ih]
        cases hs : specAmendedCollect J E parse rest with
        | error e => simp [Except.map]
        | ok tail => simp [Except.map, List.append_assoc]
    · rw [if_neg h1, if_neg h1]
      by_cases h2 : startsWith body doneTag
      · rw [if_pos h2, if_pos h2]; simp [Except.map]
      · rw [if_neg h2, if_neg h2]; exact ih v

theorem collect_eq_specAmended (J E : Type) (parse : Str → Except E J)
    (chunks : List Str) :
    post_conversation_completions_collect J E parse chunks =
      specAmendedCollect J E parse chunks := by
  rw [post_conversation_completions_collect, collectLoop_eq]
  cases specAmendedCollect J E parse chunks <;> simp [Except.map]

/-- Appending further chunks to a run that consumed `pre` completely (no
sentinel chunk inside `pre`) and produced `js` continues the run: the records of
`pre` are prepended to whatever the remaining chunks produce. -/
theorem specAmended_append (J E : Type) (parse : Str → Except E J)
    (pre rest2 : List Str) (js : List J)
    (hnd : ∀ ch ∈ pre, startsWith ch doneTag = false)
    (hok : specAmendedCollect J E parse pre = Except.ok js) :
    specAmendedCollect J E parse (pre ++ rest2) =
      Except.map (fun t => js ++ t) (specAmendedCollect J E parse rest2) := by
  induction pre generalizing js with
  | nil =>
    have hjs : js = [] := by
      have h : Except.ok ([] : List J) = Except.ok js := hok
      exact (Except.ok.inj h).symm
    subst hjs
    rw [List.nil_append]
    cases specAmendedCollect J E parse rest2 <;> simp [Except.map]
  | cons ch pre ih =>
    have hchnd : startsWith ch doneTag = false := hnd ch (List.mem_cons_self _ _)
    have hch2 : ¬ (startsWith ch doneTag = true) := by simp [hchnd]
    have hpred : ∀ c ∈ pre, startsWith c doneTag = false :=
      fun c hc => hnd c (List.mem_cons_of_mem _ hc)
    by_cases h1 : startsWith ch dataObjTag
    · simp only [specAmendedCollect, if_pos h1, List.cons_append, List.append_eq] at hok ⊢
      cases hp : parseAllLines J E parse (nonEmptyLines ch) with
      | error e => rw [hp] at hok; exact Except.noConfusion hok
      | ok js1 =>
        rw [hp] at hok
        dsimp only at hok ⊢
        cases hs : specAmendedCollect J E parse pre with
        | error e => rw [hs] at hok; exact Except.noConfusion hok
        | ok js2 =>
          rw [hs] at hok
          dsimp only at hok
          have hjs : js = js1 ++ js2 := (Except.ok.inj hok).symm
          subst hjs
          rw [ih js2 hpred hs]
          cases specAmendedCollect J E parse rest2 <;> simp [Except.map, List.append_assoc]
    · simp only [specAmendedCollect, if_neg h1, if_neg hch2, List.cons_append, List.append_eq] at hok ⊢
      exact ih js hpred hok

theorem startsWith_frameChunk_dataObjTag (r : Str) (hhead : r.head? = some braceOpenC) :
    startsWith (frameChunk r) dataObjTag = true := by
  cases r with
  | nil => simp at hhead
  | cons c r2 =>
    have hc : c = braceOpenC := by simpa using hhead
    subst hc
    have hobj : dataObjTag = dataTag ++ [braceOpenC] := by decide
    unfold startsWith frameChunk
    rw [hobj, List.append_assoc]
    have hshape : (braceOpenC :: r2) ++ ['\n'] = braceOpenC :: (r2 ++ ['\n']) := rfl
    rw [hshape, isPrefixOf_append_cancel]
    simp [List.isPrefixOf]

theorem nonEmptyLines_frameChunk (r : Str) (hn : '\n' ∉ r) (hr : '\r' ∉ r) :
    nonEmptyLines (frameChunk r) = [dataTag ++ r] := by
  have hn2 : '\n' ∉ dataTag ++ r := by
    intro hm
    rcases List.mem_append.mp hm with h | h
    · revert h; decide
    · exact hn h
  have hr2 : '\r' ∉ dataTag ++ r := by
    intro hm
    rcases List.mem_append.mp hm with h | h
    · revert h; decide
    · exact hr h
  unfold nonEmptyLines frameChunk
  rw [List.append_assoc, ← List.append_assoc dataTag r ['\n']]
  rw [rustLines_single (dataTag ++ r) hn2 hr2]
  have hne : (dataTag ++ r).isEmpty = false := by
    cases h : dataTag ++ r with
    | nil => exact absurd h (by simp [dataTag])
    | cons a l => rfl
  simp [List.filter, hne]

theorem lineParseText_frame (r : Str) (hhead : r.head? = some braceOpenC) :
    lineParseText (dataTag ++ r) = trimStr r := by
  unfold lineParseText
  rw [trimStartMatches_dataTag_concat r (isPrefixOf_dataTag_of_head_brace r hhead)]

/-- Processing one well-formed data frame prepends its record. -/
theorem specAmended_frame_cons (J E : Type) (parse : Str → Except E J) (r : Str)
    (rest : List Str) (j : J) (hhead : r.head? = some braceOpenC)
    (hn : '\n' ∉ r) (hr : '\r' ∉ r) (hp : parse (trimStr r) = Except.ok j) :
    specAmendedCollect J E parse (frameChunk r :: rest) =
      Except.map (fun t => j :: t) (specAmendedCollect J E parse rest) := by
  simp only [specAmendedCollect, if_pos (startsWith_frameChunk_dataObjTag r hhead)]
  rw [nonEmptyLines_frameChunk r hn hr]
  simp only [parseAllLines, lineParseText_frame r hhead, hp]
  cases specAmendedCollect J E parse rest <;> simp [Except.map]

theorem specAmended_done_cons (J E : Type) (parse : Str → Except E J)
    (trailing : List Str) :
    specAmendedCollect J E parse (doneChunk :: trailing) = Except.ok [] := by
  have h1 : startsWith doneChunk dataObjTag = false := by decide
  have h2 : startsWith doneChunk doneTag = true := by decide
  simp [specAmendedCollect, h1, h2]

/-- A stream of well-formed frames followed by the sentinel yields exactly the
framed records in order, whatever trails the sentinel. -/
theorem specAmended_frames (J E : Type) (parse : Str → Except E J) (f : Str → J)
    (records trailing : List Str)
    (hgood : ∀ r ∈ records, r.head? = some braceOpenC ∧ '\n' ∉ r ∧ '\r' ∉ r ∧
      parse (trimStr r) = Except.ok (f r)) :
    specAmendedCollect J E parse (records.map frameChunk ++ doneChunk :: trailing) =
      Except.ok (records.map f) := by
  induction records with
  | nil => simpa using specAmended_done_cons J E parse trailing
  | cons r rs ih =>
    have hg := hgood r (List.mem_cons_self _ _)
    have hgs : ∀ x ∈ rs, x.head? = some braceOpenC ∧ '\n' ∉ x ∧ '\r' ∉ x ∧
        parse (trimStr x) = Except.ok (f x) :=
      fun x hx => hgood x (List.mem_cons_of_mem _ hx)
    rw [List.map_cons, List.cons_append,
      specAmended_frame_cons J E parse r _ (f r) hg.1 hg.2.1 hg.2.2.1 hg.2.2.2, ih hgs]
    simp [Except.map]

/-- Folding replace-insertions of headers whose names are pairwise distinct and
disjoint from the accumulator simply appends them. -/
theorem foldl_insert_header (hs acc : List (Str × Str))
    (hdisj : ∀ kv ∈ hs, ∀ e ∈ acc, e.fst ≠ kv.fst)
    (hnd : (hs.map Prod.fst).Nodup) :
    hs.foldl Serve.insert_header acc = acc ++ hs := by
  induction hs generalizing acc with
  | nil => simp
  | cons kv hs ih =>
    rw [List.foldl_cons]
    have hins : Serve.insert_header acc kv = acc ++ [kv] := by
      unfold Serve.insert_header
      have hfe : acc.filter (fun e => e.fst != kv.fst) = acc := by
        rw [List.filter_eq_self]
        intro e he
        exact bne_iff_ne.mpr (hdisj kv (List.mem_cons_self _ _) e he)
      rw [hfe]
    rw [hins]
    have hnd' : (hs.map Prod.fst).Nodup := by
      rw [List.map_cons, List.nodup_cons] at hnd; exact hnd.2
    have hnotin : kv.fst ∉ hs.map Prod.fst := by
      rw [List.map_cons, List.nodup_cons] at hnd; exact hnd.1
    have hdisj' : ∀ kv2 ∈ hs, ∀ e ∈ acc ++ [kv], e.fst ≠ kv2.fst := by
      intro kv2 h2 e he
      rcases List.mem_append.mp he with h | h
      · exact hdisj kv2 (List.mem_cons_of_mem _ h2) e h
      · have heq : e = kv := by simpa using h
        subst heq
        intro hname
        exact hnotin (hname ▸ List.mem_map_of_mem Prod.fst h2)
    rw [ih (acc ++ [kv]) hdisj' hnd']
    simp

-- Claim C1: the upstream response classifier.

/-- Claim C1 counterexample: at status 404 (a 4xx code outside the enumerated
set) the classifier returns FailedRequestError, not the BadRequestError the
claim promises for every other 4xx status. -/
theorem claim_C1_counterexample :
    OpenGPT.err_handle 404 exBody exUrl =
      ApiError.FailedRequestError (err_msg exBody exUrl) ∧
    OpenGPT.err_handle 404 exBody exUrl ≠
      ApiError.BadRequestError (err_msg exBody exUrl) := by
  decide

/-- Claim C1 as amended: the classifier maps 401 to BadAuthentication, 429 to
TooManyRequests, the listed client-error statuses 400, 402, 403, 408 to
BadRequest with the body preserved in the message, the listed server errors 500,
502, 503, 504 to ServerError with the message discarded, and every status
outside the enumerated set (including other 4xx codes such as 404) to
FailedRequest carrying the message. -/
theorem claim_C1_amended (s : Nat) (b u : Str) :
    (s = 401 → OpenGPT.err_handle s b u = ApiError.BadAuthenticationError (err_msg b u)) ∧
    (s = 429 → OpenGPT.err_handle s b u = ApiError.TooManyRequestsError (err_msg b u)) ∧
    (s = 400 ∨ s = 402 ∨ s = 403 ∨ s = 408 →
      OpenGPT.err_handle s b u = ApiError.BadRequestError (err_msg b u)) ∧
    (s = 500 ∨ s = 502 ∨ s = 503 ∨ s = 504 →
      OpenGPT.err_handle s b u = ApiError.ServerError) ∧
    (s ∉ errHandleStatusSet →
      OpenGPT.err_handle s b u = ApiError.FailedRequestError (err_msg b u)) := by
  refine ⟨?_, ?_, ?_, ?_, ?_⟩
  · intro h; subst h; rfl
  · intro h; subst h; rfl
  · intro h; rcases h with h | h | h | h <;> subst h <;> rfl
  · intro h; rcases h with h | h | h | h <;> subst h <;> rfl
  · intro h
    unfold OpenGPT.err_handle
    rw [if_neg h]

/-- Witness for claim C1: the amended classifier evaluated at one concrete
status of each class. -/
theorem claim_C1_witness :
    OpenGPT.err_handle 401 exBody exUrl = ApiError.BadAuthenticationError (err_msg exBody exUrl) ∧
    OpenGPT.err_handle 429 exBody exUrl = ApiError.TooManyRequestsError (err_msg exBody exUrl) ∧
    OpenGPT.err_handle 402 exBody exUrl = ApiError.BadRequestError (err_msg exBody exUrl) ∧
    OpenGPT.err_handle 500 exBody exUrl = ApiError.ServerError ∧
    OpenGPT.err_handle 418 exBody exUrl = ApiError.FailedRequestError (err_msg exBody exUrl) :=
  ⟨(claim_C1_amended 401 exBody exUrl).1 rfl,
   (claim_C1_amended 429 exBody exUrl).2.1 rfl,
   (claim_C1_amended 402 exBody exUrl).2.2.1 (Or.inr (Or.inl rfl)),
   (claim_C1_amended 500 exBody exUrl).2.2.2.1 (Or.inl rfl),
   (claim_C1_amended 418 exBody exUrl).2.2.2.2 (by decide)⟩

-- Claim C2: the shape of decode-and-collect consumption.

/-- Claim C2 counterexample: on a chunk whose first line is unknown framing and
whose second line is the sentinel, followed by a data chunk, the code skips the
whole first chunk and collects the later record, while the claimed per-line
consumption would stop at the sentinel line and return no records. -/
theorem claim_C2_counterexample :
    post_conversation_completions_collect Str Str toyParse exC2Chunks =
      Except.ok [xRec] ∧
    lineByLineCollect Str Str toyParse exC2Chunks = Except.ok [] ∧
    post_conversation_completions_collect Str Str toyParse exC2Chunks ≠
      lineByLineCollect Str Str toyParse exC2Chunks := by
  decide

/-- Claim C2 as amended: decode-and-collect dispatches on each chunk's leading
bytes rather than per line — a chunk beginning with `data: {` has all of its
non-empty lines stripped, trimmed and parsed as records (a failure failing the
call); a chunk beginning with `data: [DONE]` ends consumption with the records
collected so far; any other chunk is skipped whole, its lines unexamined. -/
theorem claim_C2_amended (J E : Type) (parse : Str → Except E J)
    (chunks : List Str) :
    post_conversation_completions_collect J E parse chunks =
      specAmendedCollect J E parse chunks :=
  collect_eq_specAmended J E parse chunks

-- Claim C3: stream ordering of decode-and-collect.

/-- Claim C3: an input of well-formed one-record-per-chunk data frames followed
by the sentinel — whatever (possibly malformed) chunks trail it — collects
exactly the framed records, in input order, with no reordering or
deduplication. -/
theorem claim_C3 (J E : Type) (parse : Str → Except E J) (f : Str → J)
    (records trailing : List Str)
    (hgood : ∀ r ∈ records, r.head? = some braceOpenC ∧ '\n' ∉ r ∧ '\r' ∉ r ∧
      parse (trimStr r) = Except.ok (f r)) :
    post_conversation_completions_collect J E parse
        (records.map frameChunk ++ doneChunk :: trailing) =
      Except.ok (records.map f) := by
  rw [collect_eq_specAmended]
  exact specAmended_frames J E parse f records trailing hgood

/-- Witness for claim C3: the concrete streaming scenario — two data frames,
the sentinel, then malformed trailing bytes — yields exactly the two records. -/
theorem claim_C3_witness :
    post_conversation_completions_collect Str Str toyParse
        ([recA, recB].map frameChunk ++ doneChunk :: [garbageChunk]) =
      Except.ok [recA, recB] := by
  have h := claim_C3 Str Str toyParse (fun r => r) [recA, recB] [garbageChunk]
    (by decide)
  simpa using h

-- Claim C4: a record decode failure is a hard error for the whole call.

/-- Claim C4: when the stream reaches a data chunk one of whose records fails
to decode — everything before it having been consumed without a sentinel and
having produced the records `js` — the whole call returns the decode error and
the partial sequence `js` is discarded, never returned. -/
theorem claim_C4 (J E : Type) (parse : Str → Except E J) (pre : List Str)
    (c : Str) (rest : List Str) (js : List J) (e : E)
    (hnd : ∀ ch ∈ pre, startsWith ch doneTag = false)
    (hok : post_conversation_completions_collect J E parse pre = Except.ok js)
    (hobj : startsWith c dataObjTag = true)
    (hfail : pushLines J E parse [] (nonEmptyLines c) = Except.error e) :
    post_conversation_completions_collect J E parse (pre ++ c :: rest) =
      Except.error e := by
  rw [collect_eq_specAmended] at hok ⊢
  have hfail2 : parseAllLines J E parse (nonEmptyLines c) = Except.error e := by
    rw [pushLines_eq] at hfail
    cases hp : parseAllLines J E parse (nonEmptyLines c) with
    | error e2 => rw [hp] at hfail; simpa [Except.map] using hfail
    | ok js2 => rw [hp] at hfail; simp [Except.map] at hfail
  rw [specAmended_append J E parse pre (c :: rest) js hnd hok]
  simp only [specAmendedCollect, if_pos hobj, hfail2]
  simp [Except.map]

/-- Witness for claim C4: one good frame followed by a chunk with an unparsable
record errors out, discarding the already-collected record. -/
theorem claim_C4_witness :
    post_conversation_completions_collect Str Str toyParse
        ([frameChunk recA] ++ badChunk :: []) = Except.error badRec :=
  claim_C4 Str Str toyParse [frameChunk recA] badChunk [] [recA] badRec
    (by decide) (by decide) (by decide) (by decide)

-- Claim C5: the forwarded header set.

/-- Claim C5: the header filter strips the Connection and User-Agent headers and
forwards every other inbound header unchanged — in particular the authorization
header is forwarded. -/
theorem claim_C5 (hs : List (Str × Str)) :
    (∀ kv ∈ Serve.header_convert hs, kv.fst ≠ connectionName ∧ kv.fst ≠ userAgentName) ∧
    (∀ kv ∈ hs, kv.fst ≠ connectionName → kv.fst ≠ userAgentName →
      kv ∈ Serve.header_convert hs) ∧
    (∀ v : Str, (authorizationName, v) ∈ hs →
      (authorizationName, v) ∈ Serve.header_convert hs) := by
  refine ⟨?_, ?_, ?_⟩
  · intro kv hm
    rw [Serve.header_convert, List.mem_filter] at hm
    have hb := hm.2
    simp only [Bool.and_eq_true, bne_iff_ne] at hb
    exact hb
  · intro kv hm h1 h2
    rw [Serve.header_convert, List.mem_filter]
    refine ⟨hm, ?_⟩
    simp only [Bool.and_eq_true, bne_iff_ne]
    exact ⟨h1, h2⟩
  · intro v hm
    rw [Serve.header_convert, List.mem_filter]
    refine ⟨hm, ?_⟩
    simp only [Bool.and_eq_true, bne_iff_ne]
    exact ⟨by decide, by decide⟩

/-- Witness for claim C5: on a concrete header map the authorization and cookie
headers pass the filter. -/
theorem claim_C5_witness :
    (authorizationName, exAuthVal) ∈ Serve.header_convert exHeaders ∧
    (exCookieName, exCookieVal) ∈ Serve.header_convert exHeaders :=
  ⟨(claim_C5 exHeaders).2.2 exAuthVal (by decide),
   (claim_C5 exHeaders).2.1 (exCookieName, exCookieVal) (by decide) (by decide) (by decide)⟩

-- Claim C6: a missing conversation id fails fast.

/-- Claim C6: get_conversation and patch_conversation with an absent
conversation id return the RequiredParameter error naming conversation_id,
issuing no upstream request (the request trace is empty). -/
theorem claim_C6 (C P U : Type) (g : OpenGPT C)
    (send1 : HttpReq P → HttpResponse) (parse1 : Str → Except Str U)
    (send2 : HttpReq PatchConvoRequest → HttpResponse) (parse2 : Str → Except Str U)
    (rq : GetConvoRequest) (rp : PatchConvoRequest) :
    (rq.conversation_id = none →
      OpenGPT.get_conversation C P U g send1 parse1 rq =
        ([], Except.error (ApiError.RequiredParameter convIdName))) ∧
    (rp.conversation_id = none →
      OpenGPT.patch_conversation C U g send2 parse2 rp =
        ([], Except.error (ApiError.RequiredParameter convIdName))) := by
  constructor
  · intro h
    simp only [OpenGPT.get_conversation, h]
  · intro h
    simp only [OpenGPT.patch_conversation, h]

/-- Witness for claim C6: both endpoints evaluated on requests without a
conversation id. -/
theorem claim_C6_witness :
    OpenGPT.get_conversation Unit Unit Unit unitClient (sendStub Unit) parseUnit
        ⟨none, 0, 20⟩ =
      ([], Except.error (ApiError.RequiredParameter convIdName)) ∧
    OpenGPT.patch_conversation Unit Unit unitClient (sendStub PatchConvoRequest)
        parseUnit ⟨none, none⟩ =
      ([], Except.error (ApiError.RequiredParameter convIdName)) :=
  ⟨(claim_C6 Unit Unit Unit unitClient (sendStub Unit) parseUnit
      (sendStub PatchConvoRequest) parseUnit ⟨none, 0, 20⟩ ⟨none, none⟩).1 rfl,
   (claim_C6 Unit Unit Unit unitClient (sendStub Unit) parseUnit
      (sendStub PatchConvoRequest) parseUnit ⟨none, 0, 20⟩ ⟨none, none⟩).2 rfl⟩

-- Claim C7: mirroring the upstream response.

/-- Claim C7 counterexample: an upstream response carrying two headers with the
same name is not forwarded with the upstream's headers — per-name insertion
keeps only the last value. -/
theorem claim_C7_counterexample :
    (Serve.response_handle dupResp).headers = [(setCookieName, cookieB)] ∧
    (Serve.response_handle dupResp).headers ≠ dupResp.headers := by
  decide

/-- Claim C7 as amended: the proxy response carries the upstream status and
streams the body chunks verbatim; headers are forwarded by replace-on-name
insertion, so whenever the upstream header names are pairwise distinct the full
header list is preserved (duplicate-named headers collapse to the last value,
as the counterexample shows). -/
theorem claim_C7_amended (resp : UpstreamResponse) :
    (Serve.response_handle resp).status = resp.status ∧
    (Serve.response_handle resp).body = resp.body ∧
    ((resp.headers.map Prod.fst).Nodup →
      (Serve.response_handle resp).headers = resp.headers) := by
  refine ⟨rfl, rfl, ?_⟩
  intro hnd
  show resp.headers.foldl Serve.insert_header [] = resp.headers
  have h := foldl_insert_header resp.headers []
    (by intro kv _ e he; exact absurd he (List.not_mem_nil e)) hnd
  simpa using h

/-- Witness for claim C7: a duplicate-free upstream response is mirrored with
its exact header list. -/
theorem claim_C7_witness :
    (Serve.response_handle nodupResp).headers = nodupResp.headers :=
  (claim_C7_amended nodupResp).2.2 (by decide)

-- Claim C8: bearer extraction in the refresh/revoke handlers.

/-- Claim C8 counterexample: for the header value `Bearer Bearer x` the handler
passes `x` to the OAuth client — `trim_start_matches` removes every leading
occurrence — while stripping the literal prefix once, as the claim words it,
would leave `Bearer x`. -/
theorem claim_C8_counterexample :
    (Serve.do_refresh_token okOauthEcho (some doubleBearerVal)).fst = [xTok] ∧
    specStripBearerOnce doubleBearerVal = bearerXTok ∧
    (Serve.do_refresh_token okOauthEcho (some doubleBearerVal)).fst ≠
      [specStripBearerOnce doubleBearerVal] := by
  decide

/-- Claim C8 as amended: with an Authorization header present, refresh and
revoke pass the value with every leading `Bearer ` occurrence stripped to the
OAuth client; with the header absent they return 401 immediately, contacting no
identity provider (the call trace is empty). -/
theorem claim_C8_amended (oa ob : Str → Except Str Str) (v : Str) :
    Serve.do_refresh_token oa none = ([], ⟨401, unauthorizedBody⟩) ∧
    Serve.do_revoke_token ob none = ([], ⟨401, unauthorizedBody⟩) ∧
    (Serve.do_refresh_token oa (some v)).fst = [trimStartMatches bearerTag v] ∧
    (Serve.do_revoke_token ob (some v)).fst = [trimStartMatches bearerTag v] := by
  refine ⟨rfl, rfl, ?_, ?_⟩
  · simp only [Serve.do_refresh_token]
    cases oa (trimStartMatches bearerTag v) <;> rfl
  · simp only [Serve.do_revoke_token]
    cases ob (trimStartMatches bearerTag v) <;> rfl

-- Claim C9: the payload dispatcher rejects GET without sending.

/-- Claim C9: request_payload with the GET method fails with
`FailedRequestError "not supported method"` and an empty request trace, for
every URL and payload; every other method (POST, PATCH, PUT, DELETE) dispatches
exactly one upstream request carrying the method, URL, bearer token and
payload. -/
theorem claim_C9 (C P U : Type) (g : OpenGPT C) (send : HttpReq P → HttpResponse)
    (parse : Str → Except Str U) (url : Str) (p : P) :
    OpenGPT.request_payload C P U g send parse url RequestMethod.GET p =
      ([], Except.error (ApiError.FailedRequestError ("not supported method".toList))) ∧
    (∀ m : RequestMethod, m ≠ RequestMethod.GET →
      (OpenGPT.request_payload C P U g send parse url m p).fst =
        [⟨m, url, g.access_token, some p⟩]) := by
  constructor
  · rfl
  · intro m hm
    cases m with
    | GET => exact absurd rfl hm
    | POST => rfl
    | PATCH => rfl
    | PUT => rfl
    | DELETE => rfl

/-- Witness for claim C9: a concrete POST dispatch issues exactly one request
with the payload attached. -/
theorem claim_C9_witness :
    (OpenGPT.request_payload Unit Unit Unit unitClient (sendStub Unit) parseUnit
        [] RequestMethod.POST ()).fst =
      [⟨RequestMethod.POST, [], [], some ()⟩] :=
  (claim_C9 Unit Unit Unit unitClient (sendStub Unit) parseUnit [] ()).2
    RequestMethod.POST (by decide)

-- Claim C10: refresh_token replaces only the token.

/-- Claim C10: refresh_token replaces the stored bearer token in its entirety
and leaves the api prefix and the HTTP client unchanged; a subsequent request
on the refreshed client attaches the new token as the bearer credential. -/
theorem claim_C10 (C P U : Type) (a : Str) (cl : C) (old t : Str)
    (send : HttpReq P → HttpResponse) (parse : Str → Except Str U)
    (url : Str) (m : RequestMethod) :
    OpenGPT.refresh_token C ⟨a, cl, old⟩ t = (⟨a, cl, t⟩ : OpenGPT C) ∧
    (OpenGPT.request C P U (OpenGPT.refresh_token C ⟨a, cl, old⟩ t)
        send parse url m).fst = [⟨m, url, t, none⟩] :=
  ⟨rfl, rfl⟩

end Ninja
